import Mathlib

/-
  Verification of the Magnum scene-graph layer (camera aspect-ratio handling
  and drawing, the Animable state machine, and Object dirty/clean caching)
  against a shallow Lean embedding of the source.

  Scalars: the C++ code uses GLfloat; the embedding uses ℚ (all test inputs
  are exactly representable).  Viewport sizes (GLsizei) are ℤ.
-/

namespace Magnum

/-! ## Vectors and matrices (Math::Vector2, Math::Matrix3) -/

structure Vec2 (α : Type) where
  x : α
  y : α
deriving DecidableEq

/-- 3×3 matrix over ℚ, standing in for Math::Matrix3<T> (row i, column j). -/
structure Mat3 where
  m00 : ℚ
  m01 : ℚ
  m02 : ℚ
  m10 : ℚ
  m11 : ℚ
  m12 : ℚ
  m20 : ℚ
  m21 : ℚ
  m22 : ℚ
deriving DecidableEq

/-- Default-constructed Math::Matrix3 is the identity matrix. -/
def Mat3.identity : Mat3 := ⟨1, 0, 0, 0, 1, 0, 0, 0, 1⟩

/-- Math::Matrix3<T>::scaling({x, y}): diagonal scaling matrix. -/
def Mat3.scaling (v : Vec2 ℚ) : Mat3 := ⟨v.x, 0, 0, 0, v.y, 0, 0, 0, 1⟩

/-- Matrix product (transformation composition). -/
def Mat3.mul (a b : Mat3) : Mat3 :=
  ⟨a.m00 * b.m00 + a.m01 * b.m10 + a.m02 * b.m20,
   a.m00 * b.m01 + a.m01 * b.m11 + a.m02 * b.m21,
   a.m00 * b.m02 + a.m01 * b.m12 + a.m02 * b.m22,
   a.m10 * b.m00 + a.m11 * b.m10 + a.m12 * b.m20,
   a.m10 * b.m01 + a.m11 * b.m11 + a.m12 * b.m21,
   a.m10 * b.m02 + a.m11 * b.m12 + a.m12 * b.m22,
   a.m20 * b.m00 + a.m21 * b.m10 + a.m22 * b.m20,
   a.m20 * b.m01 + a.m21 * b.m11 + a.m22 * b.m21,
   a.m20 * b.m02 + a.m21 * b.m12 + a.m22 * b.m22⟩

/-- Determinant, used by the external transformation strategy's inversion. -/
def Mat3.det (a : Mat3) : ℚ :=
  a.m00 * (a.m11 * a.m22 - a.m12 * a.m21)
  - a.m01 * (a.m10 * a.m22 - a.m12 * a.m20)
  + a.m02 * (a.m10 * a.m21 - a.m11 * a.m20)

/-- Matrix inverse via the adjugate (the spec's external transformation
strategy "must provide composition, inversion, and identity"). -/
def Mat3.inv (a : Mat3) : Mat3 :=
  let d := a.det
  ⟨(a.m11 * a.m22 - a.m12 * a.m21) / d,
   (a.m02 * a.m21 - a.m01 * a.m22) / d,
   (a.m01 * a.m12 - a.m02 * a.m11) / d,
   (a.m12 * a.m20 - a.m10 * a.m22) / d,
   (a.m00 * a.m22 - a.m02 * a.m20) / d,
   (a.m02 * a.m10 - a.m00 * a.m12) / d,
   (a.m10 * a.m21 - a.m11 * a.m20) / d,
   (a.m01 * a.m20 - a.m00 * a.m21) / d,
   (a.m00 * a.m11 - a.m01 * a.m10) / d⟩

/-! ## Aspect-ratio policy and Implementation::aspectRatioFix
    (src/unnamed/part_000, lines 48–61) -/

inductive AspectRatioPolicy where
  | NotPreserved
  | Extend
  | Clip
deriving DecidableEq

/-- Implementation::aspectRatioFix for the 2D case (the 3D case produces the
same scaling with a trailing 1 on the z axis): returns the default-constructed
(identity) matrix when any projection-scale or viewport component is zero or
the policy is NotPreserved; otherwise compares the components of
viewport·projectionScale and scales one axis. -/
def aspectRatioFix (aspectRatioPolicy : AspectRatioPolicy)
    (projectionScale : Vec2 ℚ) (viewport : Vec2 ℤ) : Mat3 :=
  if projectionScale.x = 0 ∨ projectionScale.y = 0 ∨ viewport.x = 0 ∨ viewport.y = 0 ∨
      aspectRatioPolicy = AspectRatioPolicy.NotPreserved then
    Mat3.identity
  else
    let relativeAspect : Vec2 ℚ :=
      ⟨(viewport.x : ℚ) * projectionScale.x, (viewport.y : ℚ) * projectionScale.y⟩
    Mat3.scaling
      (if (relativeAspect.x > relativeAspect.y ↔ aspectRatioPolicy = AspectRatioPolicy.Extend) then
        ⟨relativeAspect.y / relativeAspect.x, 1⟩
      else
        ⟨1, relativeAspect.x / relativeAspect.y⟩)

/-! ## AbstractCamera (src/unnamed/part_000, lines 66–100) -/

/-- The slice of an Object's state that AbstractCamera::draw observes.
`partOfScene` models whether `object()->sceneObject()` is non-null; the
absolute and inverted-absolute transforms are the values the (external)
transformation strategy yields once the object is clean. -/
structure DrawObject where
  partOfScene : Bool
  dirty : Bool
  absoluteTransformation : Mat3
  invertedAbsoluteTransformation : Mat3
deriving DecidableEq

/-- A Drawable feature: the scene-graph core only needs its owning object. -/
structure Drawable where
  object : DrawObject
deriving DecidableEq

/-- Camera state: aspect-ratio policy, viewport, nominal projection scale,
raw and aspect-corrected projection matrices, and the cached camera matrix
(the inverted-absolute transform of the owning object, cached by the
feature's InvertedAbsolute subscription). -/
structure AbstractCamera where
  aspectRatioPolicy : AspectRatioPolicy
  viewport : Vec2 ℤ
  projectionScale : Vec2 ℚ
  rawProjectionMatrix : Mat3
  projectionMatrix : Mat3
  cameraMatrix : Mat3
  object : DrawObject
deriving DecidableEq

/-- Modelled from the spec: `fixAspectRatio()` is declared in
AbstractCamera.h (not under src); per §4.3 it recomputes the aspect-corrected
projection by applying `aspectRatioFix` for the current policy, nominal
projection scale and viewport to the raw projection matrix. -/
def AbstractCamera.fixAspectRatio (c : AbstractCamera) : AbstractCamera :=
  let fix := aspectRatioFix c.aspectRatioPolicy c.projectionScale c.viewport
  { c with projectionMatrix := fix.mul c.rawProjectionMatrix }

/-- AbstractCamera constructor (part_000 lines 66–68): the aspect-ratio
policy is initialized to NotPreserved and the feature subscribes to
inverted-absolute caching; matrices start out default-constructed
(projection = raw). -/
def AbstractCamera.construct (object : DrawObject) (rawProjectionMatrix : Mat3)
    (projectionScale : Vec2 ℚ) : AbstractCamera :=
  { aspectRatioPolicy := AspectRatioPolicy.NotPreserved
    viewport := ⟨0, 0⟩
    projectionScale := projectionScale
    rawProjectionMatrix := rawProjectionMatrix
    projectionMatrix := rawProjectionMatrix
    cameraMatrix := Mat3.identity
    object := object }

/-- setAspectRatioPolicy (part_000 lines 72–76): stores the policy and
recomputes the aspect fix. -/
def AbstractCamera.setAspectRatioPolicy (c : AbstractCamera)
    (policy : AspectRatioPolicy) : AbstractCamera :=
  ({ c with aspectRatioPolicy := policy }).fixAspectRatio

/-- setViewport (part_000 lines 78–81): stores the viewport size and
recomputes the aspect fix. -/
def AbstractCamera.setViewport (c : AbstractCamera) (size : Vec2 ℤ) : AbstractCamera :=
  ({ c with viewport := size }).fixAspectRatio

/-- Outcome of AbstractCamera::draw: either the fatal CORRADE_ASSERT message
(drawing nothing), or the list of relative transformation matrices passed to
the drawables' draw callbacks, in group order. -/
inductive DrawOutcome where
  | assertionFailure (message : String)
  | drawn (transformations : List Mat3)
deriving DecidableEq

/-- Modelled from the spec: the scene's batch
`transformationMatrices(objects, initial)` (Object implementation not under
src) returns, for each object, the premultiplied `initial` matrix composed
with that object's absolute transformation (§4.3: camera's inverse-absolute
composed with each drawable's absolute). -/
def transformationMatrices (objects : List DrawObject) (initial : Mat3) : List Mat3 :=
  objects.map fun o => initial.mul o.absoluteTransformation

/-- AbstractCamera::draw (part_000 lines 83–100): asserts the owning object
is part of a scene (returning without drawing otherwise), sets the owning
object clean (which, when the object was dirty, refreshes the cached camera
matrix through the InvertedAbsolute subscription), asks the scene for all
group members' transforms relative to the camera in one batch call, and
reports the per-drawable relative matrices in group order.  Returns the
outcome together with the updated camera (the camera reference passed to
each drawable's draw callback). -/
def AbstractCamera.draw (cam : AbstractCamera) (group : List Drawable) :
    DrawOutcome × AbstractCamera :=
  if cam.object.partOfScene = false then
    (DrawOutcome.assertionFailure
      "Camera::draw(): cannot draw when camera is not part of any scene", cam)
  else
    let wasDirty := cam.object.dirty
    let cleanedObject := { cam.object with dirty := false }
    let cameraMatrix :=
      if wasDirty then cleanedObject.invertedAbsoluteTransformation else cam.cameraMatrix
    let cam2 := { cam with object := cleanedObject, cameraMatrix := cameraMatrix }
    (DrawOutcome.drawn
      (transformationMatrices (group.map Drawable.object) cam2.cameraMatrix), cam2)

/-! ## Animable / AnimableGroup
    Modelled from the spec (§4.5): the Animable and AnimableGroup
    implementations are not under src, only their test
    (src/src/SceneGraph/Test/AnimableTest.cpp).  The model follows the
    spec's §4.5 transition table and per-step algorithm and the design note
    in §9 (transition outcomes stored eagerly at setState time as a
    previous/current state pair, with notification delivery and
    running-count maintenance deferred to the next step call, as the table's
    "on next step … removes from running count" rows and the test's
    assertions require). -/

inductive AnimationState where
  | Stopped
  | Running
  | Paused
deriving DecidableEq

/-- Observable effects of one step on one animable: the deferred
animationStarted/Paused/Resumed/Stopped notifications and calls to
animationStep with the local time and delta arguments. -/
inductive AnimEvent where
  | started
  | paused
  | resumed
  | stopped
  | animStep (time : ℚ) (delta : ℚ)
deriving DecidableEq

/-- Modelled from the spec: Animable state (§3, §4.5).  `duration` ≥ 0 with 0
meaning unbounded; `repeatCount` = 0 means unlimited; `currentState` is the
stored state updated by setState; `previousState` is the state the last step
call settled on (a pending deferred transition exists exactly when the two
differ); `startedTime` is the spec's startAbsoluteTime and `pausedTime` the
absolute time recorded at the pause step. -/
structure Animable where
  duration : ℚ
  repeated : Bool
  repeatCount : ℕ
  currentState : AnimationState
  previousState : AnimationState
  startedTime : ℚ
  pausedTime : ℚ
deriving DecidableEq

/-- Animable constructor: initial state Stopped with no pending transition. -/
def Animable.construct (duration : ℚ) : Animable :=
  { duration := duration
    repeated := false
    repeatCount := 0
    currentState := AnimationState.Stopped
    previousState := AnimationState.Stopped
    startedTime := 0
    pausedTime := 0 }

/-- setRepeated. -/
def Animable.setRepeated (a : Animable) (repeated : Bool) : Animable :=
  { a with repeated := repeated }

/-- setRepeatCount. -/
def Animable.setRepeatCount (a : Animable) (count : ℕ) : Animable :=
  { a with repeatCount := count }

/-- Modelled from the spec: setState (§4.5) only updates the stored state;
same-state transitions and Stopped→Paused are rejected as no-ops.  All
notifications and running-count changes are deferred to the next group
step. -/
def Animable.setState (a : Animable) (target : AnimationState) : Animable :=
  match a.currentState, target with
  | AnimationState.Stopped, AnimationState.Stopped => a
  | AnimationState.Running, AnimationState.Running => a
  | AnimationState.Paused, AnimationState.Paused => a
  | AnimationState.Stopped, AnimationState.Paused => a
  | _, _ => { a with currentState := target }

/-- Modelled from the spec: delivery of the pending deferred transition at
the start of a step at absolute time `t` (§4.5 table, §9 design note).  A
pending transition exists when previousState ≠ currentState:
Stopped→Running emits started and resets the start time to `t`;
Paused→Running emits resumed and shifts the start time by the wall-clock
pause gap `t - pausedTime`; a transition into Paused emits paused, records
`pausedTime := t` and uncounts the animable; a transition into Stopped
emits stopped and uncounts the animable when it was Running (a Paused one
is not in the running count).  Returns the updated animable, the
running-count change, and the emitted notifications. -/
def stepTransition (t : ℚ) (a : Animable) : Animable × ℤ × List AnimEvent :=
  match a.previousState, a.currentState with
  | AnimationState.Stopped, AnimationState.Stopped => (a, 0, [])
  | AnimationState.Running, AnimationState.Running => (a, 0, [])
  | AnimationState.Paused, AnimationState.Paused => (a, 0, [])
  | AnimationState.Stopped, AnimationState.Running =>
    ({ a with previousState := AnimationState.Running, startedTime := t },
     1, [AnimEvent.started])
  | AnimationState.Paused, AnimationState.Running =>
    ({ a with previousState := AnimationState.Running,
              startedTime := a.startedTime + (t - a.pausedTime) },
     1, [AnimEvent.resumed])
  | _, AnimationState.Paused =>
    ({ a with previousState := AnimationState.Paused, pausedTime := t },
     -1, [AnimEvent.paused])
  | AnimationState.Running, AnimationState.Stopped =>
    ({ a with previousState := AnimationState.Stopped }, -1, [AnimEvent.stopped])
  | AnimationState.Paused, AnimationState.Stopped =>
    ({ a with previousState := AnimationState.Stopped }, 0, [AnimEvent.stopped])

/-- The per-step algorithm for a Running animable (§4.5 steps 1–3), applied
after the pending transition was delivered: elapsed local time, unbounded
animations step unconditionally, bounded ones stop when out of cycles and
otherwise step with the local time reduced modulo the duration. -/
def stepRunning (t dt : ℚ) (s : Animable × ℤ × List AnimEvent) :
    Animable × ℤ × List AnimEvent :=
  let a1 := s.1
  match a1.currentState with
  | AnimationState.Stopped => s
  | AnimationState.Paused => s
  | AnimationState.Running =>
    let localTime := t - a1.startedTime
    if a1.duration = 0 then (a1, s.2.1, s.2.2 ++ [AnimEvent.animStep localTime dt])
    else
      let cycles := ⌊localTime / a1.duration⌋
      if (a1.repeated = false ∧ 1 ≤ cycles) ∨
          (a1.repeated = true ∧ a1.repeatCount ≠ 0 ∧ (a1.repeatCount : ℤ) ≤ cycles) then
        ({ a1 with currentState := AnimationState.Stopped,
                   previousState := AnimationState.Stopped },
         s.2.1 - 1, s.2.2 ++ [AnimEvent.stopped])
      else
        (a1, s.2.1, s.2.2 ++ [AnimEvent.animStep (localTime - cycles * a1.duration) dt])

/-- Modelled from the spec: the per-animable part of
AnimableGroup::step(t, dt) (§4.5) — deliver the pending transition, then
run the per-step algorithm when Running. -/
def stepAnimable (t dt : ℚ) (a : Animable) : Animable × ℤ × List AnimEvent :=
  stepRunning t dt (stepTransition t a)

/-- The notification the §4.5 table assigns to a transition that leaves
Running: paused for Running→Paused, stopped otherwise. -/
def leaveNotification : AnimationState → AnimEvent
  | AnimationState.Paused => AnimEvent.paused
  | _ => AnimEvent.stopped

/-- Modelled from the spec: an AnimableGroup holds its member animables and
the live count of currently-Running members (§3).  The count is an integer
in the model; it never becomes negative in valid use. -/
structure AnimableGroup where
  animables : List Animable
  runningCount : ℤ
deriving DecidableEq

/-- setState applied to the group member at position `i` (the C++ call
`animable.setState(...)` on a member; positions past the end are left
unchanged). -/
def setStateList : List Animable → ℕ → AnimationState → List Animable
  | [], _, _ => []
  | a :: rest, 0, s => a.setState s :: rest
  | a :: rest, n + 1, s => a :: setStateList rest n s

/-- Group-level setState on member `i`: only the member's stored state
changes; the running count is untouched until the next step. -/
def AnimableGroup.setStateAt (g : AnimableGroup) (i : ℕ) (s : AnimationState) :
    AnimableGroup :=
  { g with animables := setStateList g.animables i s }

/-- Modelled from the spec: AnimableGroup::step(absoluteTime, delta)
iterates all member animables once, applying the per-animable step, and
accumulates the running-count changes.  Returns the stepped group and each
member's emitted events. -/
def AnimableGroup.step (g : AnimableGroup) (t dt : ℚ) :
    AnimableGroup × List (List AnimEvent) :=
  let results := g.animables.map (stepAnimable t dt)
  (⟨results.map Prod.fst,
    g.runningCount + (results.map fun r => r.2.1).sum⟩,
   results.map fun r => r.2.2)

/-- The test harness's tracked `time` member: the argument of the last
animationStep call among `events`, or `current` when none occurred. -/
def lastAnimTime (events : List AnimEvent) (current : ℚ) : ℚ :=
  events.foldl
    (fun acc e => match e with | AnimEvent.animStep time _ => time | _ => acc) current

/-- A single-animable test run mirroring the fixtures in AnimableTest.cpp:
one group member, the group's running count, and the subclass's tracked last
animationStep time (initialized to -1 in the tests). -/
structure TestRun where
  animable : Animable
  runningCount : ℤ
  time : ℚ
deriving DecidableEq

/-- One group step of the single-animable test run. -/
def TestRun.step (r : TestRun) (t dt : ℚ) : TestRun :=
  let s := stepAnimable t dt r.animable
  { animable := s.1, runningCount := r.runningCount + s.2.1,
    time := lastAnimTime s.2.2 r.time }

/-- setState on the test run's animable. -/
def TestRun.setState (r : TestRun) (s : AnimationState) : TestRun :=
  { r with animable := r.animable.setState s }

/-! ## Object dirty/clean caching
    Modelled from the spec (§4.1, §4.2) and src/doc/getting-started.dox
    lines 363–370: the Object implementation is not under src. -/

/-- A feature's cached-transformation subscription (§3, §4.2): none,
absolute, inverted-absolute, or both. -/
inductive CachedTransformations where
  | none
  | absolute
  | invertedAbsolute
  | both
deriving DecidableEq

/-- Whether the subscription requests the absolute transform. -/
def CachedTransformations.wantsAbsolute : CachedTransformations → Bool
  | CachedTransformations.absolute => true
  | CachedTransformations.both => true
  | _ => false

/-- Whether the subscription requests the inverted-absolute transform. -/
def CachedTransformations.wantsInverted : CachedTransformations → Bool
  | CachedTransformations.invertedAbsolute => true
  | CachedTransformations.both => true
  | _ => false

/-- A feature as the dirty/clean walk sees it: its subscription and counters
of the markDirty / clean / cleanInverted hook invocations it received. -/
structure SGFeature where
  cached : CachedTransformations
  markDirtyCount : ℕ
  cleanCount : ℕ
  cleanInvertedCount : ℕ
deriving DecidableEq

/-- Modelled from the spec: when its owner becomes dirty, a feature with a
non-none subscription receives markDirty() (§4.1). -/
def SGFeature.notifyDirty (f : SGFeature) : SGFeature :=
  if f.cached = CachedTransformations.none then f
  else { f with markDirtyCount := f.markDirtyCount + 1 }

/-- Modelled from the spec: the clean walk invokes clean(absolute) and/or
cleanInverted(invertedAbsolute) on a feature according to its subscription
(§4.1, §4.2). -/
def SGFeature.notifyClean (f : SGFeature) : SGFeature :=
  let f1 := if f.cached.wantsAbsolute then { f with cleanCount := f.cleanCount + 1 } else f
  if f1.cached.wantsInverted then
    { f1 with cleanInvertedCount := f1.cleanInvertedCount + 1 }
  else f1

mutual

/-- Modelled from the spec: an Object subtree for the dirty-marking walk — a
dirty flag, the attached features, and the child subtrees (§3). -/
inductive ObjTree : Type where
  | node : Bool → List SGFeature → ObjForest → ObjTree

/-- A list of sibling subtrees. -/
inductive ObjForest : Type where
  | nil : ObjForest
  | cons : ObjTree → ObjForest → ObjForest

end

mutual

/-- Modelled from the spec: Object::setDirty() (§4.1, getting-started.dox
363–367) — no-op when already dirty; otherwise sets the dirty flag, invokes
markDirty() on every attached feature with a non-none subscription, and
recursively marks every child dirty. -/
def ObjTree.setDirty : ObjTree → ObjTree
  | ObjTree.node d fs cs =>
    if d then ObjTree.node d fs cs
    else ObjTree.node true (fs.map SGFeature.notifyDirty) (ObjForest.setDirtyAll cs)

/-- setDirty applied to every tree of a forest. -/
def ObjForest.setDirtyAll : ObjForest → ObjForest
  | ObjForest.nil => ObjForest.nil
  | ObjForest.cons c cs => ObjForest.cons c.setDirty (ObjForest.setDirtyAll cs)

end

/-- The node's own dirty flag. -/
def ObjTree.isDirty : ObjTree → Bool
  | ObjTree.node d _ _ => d

/-- The node's own feature list. -/
def ObjTree.features : ObjTree → List SGFeature
  | ObjTree.node _ fs _ => fs

mutual

/-- Every node of the subtree is dirty. -/
def ObjTree.allDirty : ObjTree → Bool
  | ObjTree.node d _ cs => d && ObjForest.allDirtyList cs

/-- Every node of every tree of the forest is dirty. -/
def ObjForest.allDirtyList : ObjForest → Bool
  | ObjForest.nil => true
  | ObjForest.cons c cs => c.allDirty && ObjForest.allDirtyList cs

end

mutual

/-- The spec's §3 invariant: a dirty object's descendants are all dirty
(enforced by marking children immediately). -/
def ObjTree.dirtyClosed : ObjTree → Bool
  | ObjTree.node d _ cs => (!d || ObjForest.allDirtyList cs) && ObjForest.dirtyClosedList cs

/-- The invariant for each tree of a forest. -/
def ObjForest.dirtyClosedList : ObjForest → Bool
  | ObjForest.nil => true
  | ObjForest.cons c cs => c.dirtyClosed && ObjForest.dirtyClosedList cs

end

/-- An object on a root-to-target ancestor path as the clean walk sees it:
local transform, dirty flag, cached absolute and inverted-absolute
transforms, and attached features. -/
structure PObj where
  localTransformation : Mat3
  dirty : Bool
  absoluteTransformation : Mat3
  invertedAbsoluteTransformation : Mat3
  features : List SGFeature
deriving DecidableEq

/-- Modelled from the spec: recompute one object of the dirty chain — its
absolute transform is `parent.absolute ∘ local`, the inverse is computed
only when at least one feature subscribed to it, the dirty flag is cleared,
and each feature receives its subscribed clean hooks (§4.1). -/
def cleanObj (parentAbsolute : Mat3) (o : PObj) : PObj :=
  let absolute := parentAbsolute.mul o.localTransformation
  let inverted :=
    if o.features.any fun f => f.cached.wantsInverted then absolute.inv
    else o.invertedAbsoluteTransformation
  { o with dirty := false
           absoluteTransformation := absolute
           invertedAbsoluteTransformation := inverted
           features := o.features.map SGFeature.notifyClean }

/-- Top-down recomputation of a dirty chain, threading the parent's absolute
transform. -/
def cleanChain (parentAbsolute : Mat3) : List PObj → List PObj
  | [] => []
  | o :: rest =>
    let o1 := cleanObj parentAbsolute o
    o1 :: cleanChain o1.absoluteTransformation rest

/-- Splits a root-to-target path into the untouched prefix and the maximal
all-dirty suffix — the dirty chain Object::setClean() collects by walking up
from the target to the nearest clean ancestor. -/
def dirtySuffixSplit : List PObj → List PObj × List PObj
  | [] => ([], [])
  | o :: rest =>
    let s := dirtySuffixSplit rest
    if s.1.isEmpty ∧ o.dirty then ([], o :: s.2) else (o :: s.1, s.2)

/-- The absolute transform the chain's recomputation starts from: that of
the nearest clean ancestor, or identity when the chain reaches the scene
root. -/
def parentAbsoluteOf (kept : List PObj) : Mat3 :=
  ((kept.getLast?).map PObj.absoluteTransformation).getD Mat3.identity

/-- Modelled from the spec: Object::setClean() on the target (last) object
of a root-to-target path (§4.1, getting-started.dox 366–370) — no-op when
the target is not dirty; otherwise walks up collecting the dirty chain to
the nearest clean ancestor and recomputes it top-down. -/
def setCleanPath (path : List PObj) : List PObj :=
  let s := dirtySuffixSplit path
  s.1 ++ cleanChain (parentAbsoluteOf s.1) s.2

/-- The target object's dirty flag (false for the empty path). -/
def lastDirty (path : List PObj) : Bool :=
  ((path.getLast?).map PObj.dirty).getD false

/-! ## Concrete fixtures (used by the witness theorems) -/

/-- A sample absolute transformation. -/
def exA : Mat3 := Mat3.scaling ⟨2, 3⟩

/-- A sample inverted-absolute transformation. -/
def exB : Mat3 := Mat3.scaling ⟨5, 7⟩

/-- A drawable whose object is in a scene. -/
def exDrawable : Drawable := ⟨⟨true, false, Mat3.scaling ⟨2, 1⟩, Mat3.identity⟩⟩

/-- A camera whose owning object is part of a scene and already clean, with
a valid cached camera matrix. -/
def exCameraIn : AbstractCamera :=
  ⟨AspectRatioPolicy.NotPreserved, ⟨0, 0⟩, ⟨1, 1⟩, Mat3.identity, Mat3.identity,
   exB, ⟨true, false, exA, exB⟩⟩

/-- A camera whose owning object is not part of any scene. -/
def exCameraOut : AbstractCamera :=
  ⟨AspectRatioPolicy.NotPreserved, ⟨0, 0⟩, ⟨1, 1⟩, Mat3.identity, Mat3.identity,
   exB, ⟨false, false, exA, exB⟩⟩

/-- The OneShotAnimable fixture of AnimableTest.cpp: duration 10, Running
set in the constructor. -/
def oneShotAnimable : Animable :=
  (Animable.construct 10).setState AnimationState.Running

/-- The pause-test run before any step (tracked time initialized to -1). -/
def pauseRun0 : TestRun := ⟨oneShotAnimable, 0, -1⟩

/-- The pause-test run after steps at t=1.0 and t=2.5. -/
def pauseRun2 : TestRun := (pauseRun0.step 1 (1/2)).step (5/2) (1/2)

/-- The pause-test run right after setState(Paused), before any further
step. -/
def pauseRun3 : TestRun := pauseRun2.setState AnimationState.Paused

/-- The pause-test run after the pause was delivered by the step at t=3.0
and a further no-effect step at t=4.5. -/
def pauseRun5 : TestRun := (pauseRun3.step 3 (1/2)).step (9/2) (1/2)

/-- The RepeatingAnimable fixture: duration 10, Running, repeated. -/
def repeatRun0 : TestRun :=
  ⟨((Animable.construct 10).setState AnimationState.Running).setRepeated true, 0, -1⟩

/-- The repeat-test run after steps at t=1, t=11.5 and t=25.5. -/
def repeatRun3 : TestRun :=
  ((repeatRun0.step 1 (1/2)).step (23/2) (1/2)).step (51/2) (1/2)

/-- The repeat-test run after setRepeatCount(3). -/
def repeatRun3c : TestRun :=
  { repeatRun3 with animable := repeatRun3.animable.setRepeatCount 3 }

/-- A feature with an inverted-absolute subscription and untouched
counters. -/
def exFeatureInv : SGFeature := ⟨CachedTransformations.invertedAbsolute, 0, 0, 0⟩

/-- A feature with no subscription and untouched counters. -/
def exFeatureNone : SGFeature := ⟨CachedTransformations.none, 0, 0, 0⟩

/-- A clean root with two features (one subscribed, one not) and one dirty
child that itself has a dirty child: the invariant that a dirty node's
descendants are all dirty holds. -/
def exTree : ObjTree :=
  ObjTree.node false [exFeatureInv, exFeatureNone]
    (ObjForest.cons
      (ObjTree.node true [exFeatureInv]
        (ObjForest.cons (ObjTree.node true [] ObjForest.nil) ObjForest.nil))
      ObjForest.nil)

/-- A fully dirty one-node tree. -/
def exTreeDirty : ObjTree := ObjTree.node true [exFeatureInv] ObjForest.nil

/-- A two-object root-to-target path: clean root (absolute already cached),
dirty target with a subscribed feature. -/
def exPath : List PObj :=
  [⟨Mat3.scaling ⟨2, 1⟩, false, Mat3.scaling ⟨2, 1⟩, Mat3.identity, []⟩,
   ⟨Mat3.scaling ⟨1, 3⟩, true, Mat3.identity, Mat3.identity,
    [⟨CachedTransformations.both, 1, 0, 0⟩]⟩]

/-- A path whose target is already clean. -/
def exPathClean : List PObj :=
  [⟨Mat3.scaling ⟨2, 1⟩, false, Mat3.scaling ⟨2, 1⟩, Mat3.identity, []⟩]

/-! ## Helper lemmas -/

theorem Mat3.identity_mul (m : Mat3) : Mat3.identity.mul m = m := by
  cases m
  simp [Mat3.mul, Mat3.identity]

theorem aspectRatioFix_guard (policy : AspectRatioPolicy)
    (projectionScale : Vec2 ℚ) (viewport : Vec2 ℤ)
    (h : projectionScale.x = 0 ∨ projectionScale.y = 0 ∨ viewport.x = 0 ∨ viewport.y = 0 ∨
      policy = AspectRatioPolicy.NotPreserved) :
    aspectRatioFix policy projectionScale viewport = Mat3.identity := by
  rw [aspectRatioFix, if_pos h]

/-! ## Claim theorems and witnesses -/

/-- C6: for every aspect-ratio policy, projection scale and viewport, the
aspect-ratio correction is the identity matrix whenever any component of
the projection scale or of the viewport is zero, or the policy is
NotPreserved; the computation is total (division by a zero denominator
never occurs on the path that divides). -/
theorem aspectRatioFix_degenerate_identity (policy : AspectRatioPolicy)
    (projectionScale : Vec2 ℚ) (viewport : Vec2 ℤ)
    (h : projectionScale.x = 0 ∨ projectionScale.y = 0 ∨ viewport.x = 0 ∨ viewport.y = 0 ∨
      policy = AspectRatioPolicy.NotPreserved) :
    aspectRatioFix policy projectionScale viewport = Mat3.identity :=
  aspectRatioFix_guard policy projectionScale viewport h

/-- Witness for C6: a zero projection-scale component under Clip, a zero
viewport component under Extend, and NotPreserved with nondegenerate
inputs all yield the identity correction. -/
theorem aspectRatioFix_degenerate_identity_witness :
    aspectRatioFix AspectRatioPolicy.Clip ⟨0, 1⟩ ⟨800, 600⟩ = Mat3.identity ∧
    aspectRatioFix AspectRatioPolicy.Extend ⟨1, 1⟩ ⟨800, 0⟩ = Mat3.identity ∧
    aspectRatioFix AspectRatioPolicy.NotPreserved ⟨1, 1⟩ ⟨800, 600⟩ = Mat3.identity :=
  ⟨aspectRatioFix_degenerate_identity AspectRatioPolicy.Clip ⟨0, 1⟩ ⟨800, 600⟩ (Or.inl rfl),
   aspectRatioFix_degenerate_identity AspectRatioPolicy.Extend ⟨1, 1⟩ ⟨800, 0⟩
     (Or.inr (Or.inr (Or.inr (Or.inl rfl)))),
   aspectRatioFix_degenerate_identity AspectRatioPolicy.NotPreserved ⟨1, 1⟩ ⟨800, 600⟩
     (Or.inr (Or.inr (Or.inr (Or.inr rfl))))⟩

/-- C7: for policies Extend and Clip with all-nonzero projection scale and
viewport, with r = viewport·projectionScale componentwise, when
(r.x > r.y) equals (policy = Extend) the correction scales the x axis by
r.y/r.x leaving y at 1, and otherwise scales the y axis by r.x/r.y leaving
x at 1. -/
theorem aspectRatioFix_extend_clip (policy : AspectRatioPolicy)
    (projectionScale : Vec2 ℚ) (viewport : Vec2 ℤ)
    (hpolicy : policy = AspectRatioPolicy.Extend ∨ policy = AspectRatioPolicy.Clip)
    (hpx : projectionScale.x ≠ 0) (hpy : projectionScale.y ≠ 0)
    (hvx : viewport.x ≠ 0) (hvy : viewport.y ≠ 0) :
    aspectRatioFix policy projectionScale viewport =
      Mat3.scaling
        (if ((viewport.x : ℚ) * projectionScale.x > (viewport.y : ℚ) * projectionScale.y ↔
            policy = AspectRatioPolicy.Extend) then
          ⟨((viewport.y : ℚ) * projectionScale.y) / ((viewport.x : ℚ) * projectionScale.x), 1⟩
        else
          ⟨1, ((viewport.x : ℚ) * projectionScale.x) / ((viewport.y : ℚ) * projectionScale.y)⟩) := by
  have hguard : ¬(projectionScale.x = 0 ∨ projectionScale.y = 0 ∨ viewport.x = 0 ∨
      viewport.y = 0 ∨ policy = AspectRatioPolicy.NotPreserved) := by
    rcases hpolicy with h | h <;> subst h <;> simp [hpx, hpy, hvx, hvy]
  rw [aspectRatioFix, if_neg hguard]

/-- Witness for C7: policy Extend, viewport 800×600, projection scale 1:1 —
the x axis is scaled by 600/800 = 3/4, which equals min(ratio, 1/ratio) for
ratio = 800/600. -/
theorem aspectRatioFix_extend_clip_witness :
    aspectRatioFix AspectRatioPolicy.Extend ⟨1, 1⟩ ⟨800, 600⟩ = Mat3.scaling ⟨3/4, 1⟩ ∧
    (3/4 : ℚ) = min ((800 : ℚ) / 600) ((600 : ℚ) / 800) := by
  constructor
  · rw [aspectRatioFix_extend_clip AspectRatioPolicy.Extend ⟨1, 1⟩ ⟨800, 600⟩
      (Or.inl rfl) (by norm_num) (by norm_num) (by norm_num) (by norm_num)]
    norm_num
  · norm_num

theorem camera_foldl_setViewport_invariant (sizes : List (Vec2 ℤ)) (c : AbstractCamera)
    (hp : c.aspectRatioPolicy = AspectRatioPolicy.NotPreserved)
    (hm : c.projectionMatrix = c.rawProjectionMatrix) :
    (sizes.foldl AbstractCamera.setViewport c).aspectRatioPolicy =
      AspectRatioPolicy.NotPreserved ∧
    (sizes.foldl AbstractCamera.setViewport c).projectionMatrix =
      (sizes.foldl AbstractCamera.setViewport c).rawProjectionMatrix ∧
    (sizes.foldl AbstractCamera.setViewport c).rawProjectionMatrix =
      c.rawProjectionMatrix := by
  induction sizes generalizing c with
  | nil => exact ⟨hp, hm, rfl⟩
  | cons s rest ih =>
    simp only [List.foldl_cons]
    have hfix : aspectRatioFix ({ c with viewport := s }).aspectRatioPolicy
        ({ c with viewport := s }).projectionScale ({ c with viewport := s }).viewport =
        Mat3.identity :=
      aspectRatioFix_guard _ _ _ (Or.inr (Or.inr (Or.inr (Or.inr hp))))
    have h1 : c.setViewport s =
        { c with viewport := s, projectionMatrix := c.rawProjectionMatrix } := by
      simp [AbstractCamera.setViewport, AbstractCamera.fixAspectRatio, hfix,
        Mat3.identity_mul]
    rw [h1]
    exact ih _ hp rfl

/-- C10: a newly constructed camera has aspect-ratio policy NotPreserved,
and after any sequence of setViewport calls (and no setAspectRatioPolicy
call) the policy is still NotPreserved and the projection matrix carries no
aspect-ratio correction: it equals the raw projection matrix. -/
theorem camera_default_policy_not_preserved (object : DrawObject) (raw : Mat3)
    (ps : Vec2 ℚ) (sizes : List (Vec2 ℤ)) :
    (AbstractCamera.construct object raw ps).aspectRatioPolicy =
      AspectRatioPolicy.NotPreserved ∧
    (sizes.foldl AbstractCamera.setViewport
      (AbstractCamera.construct object raw ps)).aspectRatioPolicy =
      AspectRatioPolicy.NotPreserved ∧
    (sizes.foldl AbstractCamera.setViewport
      (AbstractCamera.construct object raw ps)).projectionMatrix = raw := by
  have h := camera_foldl_setViewport_invariant sizes
    (AbstractCamera.construct object raw ps) rfl rfl
  exact ⟨rfl, h.1, h.2.1.trans h.2.2⟩

/-- C1: AbstractCamera::draw fails with the fatal precondition assertion
and draws nothing when the camera's object is not part of any scene;
otherwise it sets its own object's transform clean and reports, for every
drawable in the group in group order, the drawable's transform relative to
the camera — the camera's inverse-absolute composed with the drawable's
absolute — as computed by the scene's single batch call.  The hypothesis is
the cache-validity invariant of §3: a clean owning object implies the
cached camera matrix is its inverted-absolute transform. -/
theorem camera_draw_spec (cam : AbstractCamera) (group : List Drawable)
    (hcache : cam.object.dirty = false →
      cam.cameraMatrix = cam.object.invertedAbsoluteTransformation) :
    (cam.object.partOfScene = false →
      (cam.draw group).1 = DrawOutcome.assertionFailure
        "Camera::draw(): cannot draw when camera is not part of any scene" ∧
      (cam.draw group).2 = cam) ∧
    (cam.object.partOfScene = true →
      (cam.draw group).2.object.dirty = false ∧
      (cam.draw group).1 = DrawOutcome.drawn (group.map fun d =>
        cam.object.invertedAbsoluteTransformation.mul d.object.absoluteTransformation)) := by
  constructor
  · intro h
    rw [AbstractCamera.draw, if_pos h]
    exact ⟨rfl, rfl⟩
  · intro h
    have hns : ¬(cam.object.partOfScene = false) := by simp [h]
    rw [AbstractCamera.draw, if_neg hns]
    refine ⟨rfl, ?_⟩
    have hmat : (if cam.object.dirty then
        ({ cam.object with dirty := false } : DrawObject).invertedAbsoluteTransformation
        else cam.cameraMatrix) = cam.object.invertedAbsoluteTransformation := by
      cases hd : cam.object.dirty with
      | true => rfl
      | false => simp [hcache hd]
    simp only [transformationMatrices, List.map_map, hmat]
    rfl

/-- Witness for C1: a concrete out-of-scene camera fails with the assertion
message; a concrete in-scene camera ends with a clean object and draws one
drawable with the camera's inverse-absolute composed with the drawable's
absolute. -/
theorem camera_draw_spec_witness :
    (exCameraOut.draw []).1 = DrawOutcome.assertionFailure
      "Camera::draw(): cannot draw when camera is not part of any scene" ∧
    (exCameraIn.draw [exDrawable]).2.object.dirty = false ∧
    (exCameraIn.draw [exDrawable]).1 = DrawOutcome.drawn
      [exB.mul (Mat3.scaling ⟨2, 1⟩)] := by
  refine ⟨((camera_draw_spec exCameraOut [] (fun _ => rfl)).1 rfl).1, ?_, ?_⟩
  · exact ((camera_draw_spec exCameraIn [exDrawable] (fun _ => rfl)).2 rfl).1
  · have h := ((camera_draw_spec exCameraIn [exDrawable] (fun _ => rfl)).2 rfl).2
    simpa [exDrawable] using h

/-- C2 counterexample: in the pause-test trace (duration 10, running,
stepped at t=1.0 and t=2.5), setState(Paused) leaves the group's running
count at 1 — it is not decremented at the setState() call itself, contrary
to the claim; the decrement happens at the next group step. -/
theorem animable_pause_count_not_immediate_cex :
    pauseRun2.runningCount = 1 ∧
    pauseRun3.runningCount = 1 ∧
    ¬pauseRun3.runningCount = 0 ∧
    (pauseRun3.step 3 (1/2)).runningCount = 0 := by
  have e0 : pauseRun0 = ⟨⟨10, false, 0, AnimationState.Running, AnimationState.Stopped, 0, 0⟩, 0, -1⟩ := by
    norm_num [pauseRun0, oneShotAnimable, Animable.construct, Animable.setState]
  have e1 : pauseRun0.step 1 (1/2) =
      ⟨⟨10, false, 0, AnimationState.Running, AnimationState.Running, 1, 0⟩, 1, 0⟩ := by
    rw [e0]; norm_num [TestRun.step, stepAnimable, stepTransition, stepRunning, lastAnimTime]
  have e2 : pauseRun2 =
      ⟨⟨10, false, 0, AnimationState.Running, AnimationState.Running, 1, 0⟩, 1, 3/2⟩ := by
    rw [pauseRun2, e1]
    norm_num [TestRun.step, stepAnimable, stepTransition, stepRunning, lastAnimTime]
  have e3 : pauseRun3 =
      ⟨⟨10, false, 0, AnimationState.Paused, AnimationState.Running, 1, 0⟩, 1, 3/2⟩ := by
    rw [pauseRun3, e2]
    norm_num [TestRun.setState, Animable.setState]
  refine ⟨by rw [e2], by rw [e3], by rw [e3]; norm_num, ?_⟩
  rw [e3]
  norm_num [TestRun.step, stepAnimable, stepTransition, stepRunning, lastAnimTime]

/-- C2 amended: for a settled Running animable, a setState() call that
leaves Running (target Paused or Stopped) only updates the stored state —
the group's running count is unchanged at the setState() call itself; both
the decrement and the paused/stopped notification happen at the next group
step. -/
theorem animable_leave_running_deferred (a : Animable) (c : ℤ)
    (target : AnimationState) (t dt : ℚ)
    (hcur : a.currentState = AnimationState.Running)
    (hprev : a.previousState = AnimationState.Running)
    (htarget : target = AnimationState.Paused ∨ target = AnimationState.Stopped) :
    (AnimableGroup.setStateAt ⟨[a], c⟩ 0 target).runningCount = c ∧
    (AnimableGroup.setStateAt ⟨[a], c⟩ 0 target).animables.map Animable.currentState =
      [target] ∧
    ((AnimableGroup.setStateAt ⟨[a], c⟩ 0 target).step t dt).1.runningCount = c - 1 ∧
    ((AnimableGroup.setStateAt ⟨[a], c⟩ 0 target).step t dt).2 =
      [[leaveNotification target]] := by
  obtain ⟨dur, rep, cap, cur, prev, st, pt⟩ := a
  dsimp only at hcur hprev
  subst hcur hprev
  rcases htarget with h | h <;> subst h <;>
    simp [AnimableGroup.setStateAt, setStateList, Animable.setState, AnimableGroup.step,
      stepAnimable, stepTransition, stepRunning, leaveNotification] <;> ring

/-- Witness for C2's amended claim: concrete running animable, count 1,
target Paused, stepped at t=3. -/
theorem animable_leave_running_deferred_witness :
    (AnimableGroup.setStateAt
      ⟨[⟨10, false, 0, AnimationState.Running, AnimationState.Running, 1, 0⟩], 1⟩ 0
      AnimationState.Paused).runningCount = 1 ∧
    ((AnimableGroup.setStateAt
      ⟨[⟨10, false, 0, AnimationState.Running, AnimationState.Running, 1, 0⟩], 1⟩ 0
      AnimationState.Paused).step 3 (1/2)).1.runningCount = 0 ∧
    ((AnimableGroup.setStateAt
      ⟨[⟨10, false, 0, AnimationState.Running, AnimationState.Running, 1, 0⟩], 1⟩ 0
      AnimationState.Paused).step 3 (1/2)).2 = [[AnimEvent.paused]] := by
  have h := animable_leave_running_deferred
    ⟨10, false, 0, AnimationState.Running, AnimationState.Running, 1, 0⟩ 1
    AnimationState.Paused 3 (1/2) rfl rfl (Or.inl rfl)
  refine ⟨h.1, ?_, ?_⟩
  · rw [h.2.2.1]; norm_num
  · rw [h.2.2.2]; rfl

/-- C3: a settled Running bounded animable with repeated = true and a
nonzero repeatCount cap stops on any step whose cycle count
⌊(t - startedTime) / duration⌋ reaches the cap: the step transitions it to
Stopped, emits no animationStep (so the last observed local time is
preserved), and removes it from the running count. -/
theorem animable_repeat_cap_stops (a : Animable) (t dt : ℚ)
    (hcur : a.currentState = AnimationState.Running)
    (hprev : a.previousState = AnimationState.Running)
    (hdur : 0 < a.duration) (hrep : a.repeated = true) (hcap : a.repeatCount ≠ 0)
    (hcycles : (a.repeatCount : ℤ) ≤ ⌊(t - a.startedTime) / a.duration⌋) :
    stepAnimable t dt a =
      ({ a with currentState := AnimationState.Stopped,
                previousState := AnimationState.Stopped }, -1, [AnimEvent.stopped]) := by
  obtain ⟨dur, rep, cap, cur, prev, st, pt⟩ := a
  dsimp only at hcur hprev hdur hrep hcap hcycles
  subst hcur hprev hrep
  simp only [stepAnimable, stepTransition, stepRunning]
  rw [if_neg hdur.ne', if_pos (Or.inr ⟨by simp, hcap, hcycles⟩)]
  norm_num

/-- Witness for C3: the repeat-test trace — duration 10, repeated, steps at
t=1, 11.5, 25.5 observe local times 0, 0.5, 4.5 while Running; after
setRepeatCount(3), the step at t=33.0 (cycles = ⌊32/10⌋ = 3) stops the
animable without invoking animationStep, so the tracked time stays 4.5. -/
theorem animable_repeat_cap_stops_witness :
    repeatRun3.time = 9/2 ∧
    repeatRun3.animable.currentState = AnimationState.Running ∧
    (repeatRun3c.step 33 (1/2)).animable.currentState = AnimationState.Stopped ∧
    (repeatRun3c.step 33 (1/2)).time = 9/2 ∧
    (repeatRun3c.step 33 (1/2)).runningCount = 0 := by
  have e0 : repeatRun0 =
      ⟨⟨10, true, 0, AnimationState.Running, AnimationState.Stopped, 0, 0⟩, 0, -1⟩ := by
    norm_num [repeatRun0, Animable.construct, Animable.setState, Animable.setRepeated]
  have e1 : repeatRun0.step 1 (1/2) =
      ⟨⟨10, true, 0, AnimationState.Running, AnimationState.Running, 1, 0⟩, 1, 0⟩ := by
    rw [e0]; norm_num [TestRun.step, stepAnimable, stepTransition, stepRunning, lastAnimTime]
  have e2 : (repeatRun0.step 1 (1/2)).step (23/2) (1/2) =
      ⟨⟨10, true, 0, AnimationState.Running, AnimationState.Running, 1, 0⟩, 1, 1/2⟩ := by
    rw [e1]; norm_num [TestRun.step, stepAnimable, stepTransition, stepRunning, lastAnimTime]
  have e3 : repeatRun3 =
      ⟨⟨10, true, 0, AnimationState.Running, AnimationState.Running, 1, 0⟩, 1, 9/2⟩ := by
    rw [repeatRun3, e2]
    norm_num [TestRun.step, stepAnimable, stepTransition, stepRunning, lastAnimTime]
  have e4 : repeatRun3c =
      ⟨⟨10, true, 3, AnimationState.Running, AnimationState.Running, 1, 0⟩, 1, 9/2⟩ := by
    rw [repeatRun3c, e3]; rfl
  have h := animable_repeat_cap_stops
    ⟨10, true, 3, AnimationState.Running, AnimationState.Running, 1, 0⟩ 33 (1/2)
    rfl rfl (by norm_num) rfl (by norm_num) (by norm_num)
  refine ⟨by rw [e3], by rw [e3], ?_, ?_, ?_⟩
  · rw [e4]
    show (stepAnimable 33 (1/2)
      ⟨10, true, 3, AnimationState.Running, AnimationState.Running, 1, 0⟩).1.currentState =
      AnimationState.Stopped
    rw [h]
  · rw [e4]; norm_num [TestRun.step, stepAnimable, stepTransition, stepRunning, lastAnimTime]
  · rw [e4]; norm_num [TestRun.step, stepAnimable, stepTransition, stepRunning, lastAnimTime]

/-- C5: for an animable in Stopped state, setState(Paused) is a silently
rejected no-op — the animable is unchanged, so the state remains Stopped;
and a settled Stopped animable's subsequent steps emit no notification and
leave the running count unchanged. -/
theorem animable_stopped_to_paused_rejected (a : Animable)
    (hc : a.currentState = AnimationState.Stopped) :
    a.setState AnimationState.Paused = a ∧
    (a.previousState = AnimationState.Stopped →
      ∀ t dt, stepAnimable t dt a = (a, 0, [])) := by
  obtain ⟨dur, rep, cap, cur, prev, st, pt⟩ := a
  dsimp only at hc
  subst hc
  refine ⟨rfl, ?_⟩
  intro hp t dt
  dsimp only at hp
  subst hp
  rfl

/-- Witness for C5: a freshly constructed (Stopped) animable of duration 5:
setState(Paused) returns it unchanged and a step at t=2 does nothing. -/
theorem animable_stopped_to_paused_rejected_witness :
    (Animable.construct 5).setState AnimationState.Paused = Animable.construct 5 ∧
    stepAnimable 2 1 (Animable.construct 5) = (Animable.construct 5, 0, []) := by
  have h := animable_stopped_to_paused_rejected (Animable.construct 5) rfl
  exact ⟨h.1, h.2 rfl 2 1⟩

/-- C4: for a settled Running bounded animable paused via setState(Paused),
the next step records the absolute pause time and uncounts it; further
steps while paused change nothing; and after setState(Running), the next
step at time tr adjusts the start time by the wall-clock gap tr - tp, so
the animationStep it emits continues seamlessly at the local time the
animable had when the pause was delivered (tp - startedTime), not jumped by
the gap. -/
theorem animable_pause_resume_seamless (a : Animable) (tp tr dtp dtr : ℚ)
    (hcur : a.currentState = AnimationState.Running)
    (hprev : a.previousState = AnimationState.Running)
    (hdur : 0 < a.duration)
    (h0 : 0 ≤ tp - a.startedTime) (hlt : tp - a.startedTime < a.duration) :
    stepAnimable tp dtp (a.setState AnimationState.Paused) =
      ({ a with currentState := AnimationState.Paused,
                previousState := AnimationState.Paused, pausedTime := tp },
       -1, [AnimEvent.paused]) ∧
    (∀ t2 d2, stepAnimable t2 d2
        { a with currentState := AnimationState.Paused,
                 previousState := AnimationState.Paused, pausedTime := tp } =
      ({ a with currentState := AnimationState.Paused,
                previousState := AnimationState.Paused, pausedTime := tp }, 0, [])) ∧
    stepAnimable tr dtr
        (({ a with currentState := AnimationState.Paused,
                   previousState := AnimationState.Paused,
                   pausedTime := tp }).setState AnimationState.Running) =
      ({ a with currentState := AnimationState.Running,
                previousState := AnimationState.Running,
                startedTime := a.startedTime + (tr - tp), pausedTime := tp },
       1, [AnimEvent.resumed, AnimEvent.animStep (tp - a.startedTime) dtr]) := by
  obtain ⟨dur, rep, cap, cur, prev, st, pt⟩ := a
  dsimp only at hcur hprev hdur h0 hlt
  subst hcur hprev
  refine ⟨rfl, fun t2 d2 => rfl, ?_⟩
  simp only [Animable.setState, stepAnimable, stepTransition, stepRunning]
  have harith : tr - (st + (tr - tp)) = tp - st := by ring
  rw [harith]
  have hfloor : ⌊(tp - st) / dur⌋ = 0 :=
    Int.floor_eq_zero_iff.mpr
      (Set.mem_Ico.mpr ⟨div_nonneg h0 hdur.le, (div_lt_one hdur).mpr hlt⟩)
  rw [if_neg hdur.ne', hfloor]
  have hcond : ¬((rep = false ∧ (1:ℤ) ≤ 0) ∨
      (rep = true ∧ cap ≠ 0 ∧ (cap : ℤ) ≤ 0)) := by
    rintro (⟨-, hc⟩ | ⟨-, hcap, hle⟩)
    · omega
    · omega
  rw [if_neg hcond]
  norm_num

/-- Witness for C4: the pause-test trace — duration 10, steps at t=1.0 and
t=2.5 (local time 1.5), pause delivered at t=3.0, a further step at t=4.5
changes nothing, and after resuming, the step at t=5.0 observes local time
2.0. -/
theorem animable_pause_resume_seamless_witness :
    pauseRun2.time = 3/2 ∧
    pauseRun5.animable.currentState = AnimationState.Paused ∧
    pauseRun5.time = 3/2 ∧
    ((pauseRun5.setState AnimationState.Running).step 5 (1/2)).animable.currentState =
      AnimationState.Running ∧
    ((pauseRun5.setState AnimationState.Running).step 5 (1/2)).time = 2 := by
  have e0 : pauseRun0 =
      ⟨⟨10, false, 0, AnimationState.Running, AnimationState.Stopped, 0, 0⟩, 0, -1⟩ := by
    norm_num [pauseRun0, oneShotAnimable, Animable.construct, Animable.setState]
  have e1 : pauseRun0.step 1 (1/2) =
      ⟨⟨10, false, 0, AnimationState.Running, AnimationState.Running, 1, 0⟩, 1, 0⟩ := by
    rw [e0]; norm_num [TestRun.step, stepAnimable, stepTransition, stepRunning, lastAnimTime]
  have e2 : pauseRun2 =
      ⟨⟨10, false, 0, AnimationState.Running, AnimationState.Running, 1, 0⟩, 1, 3/2⟩ := by
    rw [pauseRun2, e1]
    norm_num [TestRun.step, stepAnimable, stepTransition, stepRunning, lastAnimTime]
  have h := animable_pause_resume_seamless
    ⟨10, false, 0, AnimationState.Running, AnimationState.Running, 1, 0⟩ 3 5 (1/2) (1/2)
    rfl rfl (by norm_num) (by norm_num) (by norm_num)
  have e3 : pauseRun3 =
      ⟨⟨10, false, 0, AnimationState.Paused, AnimationState.Running, 1, 0⟩, 1, 3/2⟩ := by
    rw [pauseRun3, e2]; rfl
  have e4 : pauseRun3.step 3 (1/2) =
      ⟨⟨10, false, 0, AnimationState.Paused, AnimationState.Paused, 1, 3⟩, 0, 3/2⟩ := by
    rw [e3]
    show (⟨(stepAnimable 3 (1/2)
      ⟨10, false, 0, AnimationState.Paused, AnimationState.Running, 1, 0⟩).1,
      1 + (stepAnimable 3 (1/2)
        ⟨10, false, 0, AnimationState.Paused, AnimationState.Running, 1, 0⟩).2.1,
      lastAnimTime (stepAnimable 3 (1/2)
        ⟨10, false, 0, AnimationState.Paused, AnimationState.Running, 1, 0⟩).2.2 (3/2)⟩ :
      TestRun) = _
    have hp : stepAnimable 3 (1/2)
        ⟨10, false, 0, AnimationState.Paused, AnimationState.Running, 1, 0⟩ =
        (⟨10, false, 0, AnimationState.Paused, AnimationState.Paused, 1, 3⟩, -1,
         [AnimEvent.paused]) := by
      have := h.1
      norm_num [Animable.setState] at this ⊢
      exact this
    rw [hp]
    norm_num [lastAnimTime]
  have e5 : pauseRun5 =
      ⟨⟨10, false, 0, AnimationState.Paused, AnimationState.Paused, 1, 3⟩, 0, 3/2⟩ := by
    rw [pauseRun5, e4]
    norm_num [TestRun.step, stepAnimable, stepTransition, stepRunning, lastAnimTime]
  have e6 : (pauseRun5.setState AnimationState.Running).step 5 (1/2) =
      ⟨⟨10, false, 0, AnimationState.Running, AnimationState.Running, 3, 3⟩, 1, 2⟩ := by
    rw [e5]
    show (⟨(stepAnimable 5 (1/2)
      ((⟨10, false, 0, AnimationState.Paused, AnimationState.Paused, 1, 3⟩ :
        Animable).setState AnimationState.Running)).1,
      0 + (stepAnimable 5 (1/2)
        ((⟨10, false, 0, AnimationState.Paused, AnimationState.Paused, 1, 3⟩ :
          Animable).setState AnimationState.Running)).2.1,
      lastAnimTime (stepAnimable 5 (1/2)
        ((⟨10, false, 0, AnimationState.Paused, AnimationState.Paused, 1, 3⟩ :
          Animable).setState AnimationState.Running)).2.2 (3/2)⟩ : TestRun) = _
    have hr := h.2.2
    norm_num [Animable.setState] at hr ⊢
    rw [hr]
    norm_num [lastAnimTime]
  exact ⟨by rw [e2], by rw [e5], by rw [e5], by rw [e6], by rw [e6]⟩

mutual

theorem ObjTree.setDirty_allDirty : (t : ObjTree) → t.dirtyClosed = true →
    t.setDirty.allDirty = true
  | ObjTree.node d fs cs, h => by
    rw [ObjTree.dirtyClosed, Bool.and_eq_true, Bool.or_eq_true, Bool.not_eq_true'] at h
    cases d with
    | true =>
      have hcs : ObjForest.allDirtyList cs = true := by
        rcases h.1 with h' | h'
        · exact absurd h' (by simp)
        · exact h'
      simp [ObjTree.setDirty, ObjTree.allDirty, hcs]
    | false =>
      simp [ObjTree.setDirty, ObjTree.allDirty, ObjForest.setDirtyAll_allDirty cs h.2]

theorem ObjForest.setDirtyAll_allDirty : (f : ObjForest) → f.dirtyClosedList = true →
    f.setDirtyAll.allDirtyList = true
  | ObjForest.nil, _ => rfl
  | ObjForest.cons c cs, h => by
    rw [ObjForest.dirtyClosedList, Bool.and_eq_true] at h
    simp [ObjForest.setDirtyAll, ObjForest.allDirtyList,
      ObjTree.setDirty_allDirty c h.1, ObjForest.setDirtyAll_allDirty cs h.2]

end

/-- C8: under the §3 invariant that a dirty node's descendants are all
dirty, setDirty() on an already-dirty object is a no-op; on a clean object
it makes every node of the subtree (the object and all descendants) report
dirty, and invokes markDirty() exactly on the object's features with a
non-none cache subscription. -/
theorem object_setDirty_spec (t : ObjTree) (h : t.dirtyClosed = true) :
    (t.isDirty = true → t.setDirty = t) ∧
    t.setDirty.allDirty = true ∧
    (t.isDirty = false → t.setDirty.features = t.features.map SGFeature.notifyDirty) := by
  refine ⟨?_, ObjTree.setDirty_allDirty t h, ?_⟩
  · intro hd
    cases t with
    | node d fs cs =>
      rw [ObjTree.isDirty] at hd
      subst hd
      simp [ObjTree.setDirty]
  · intro hd
    cases t with
    | node d fs cs =>
      rw [ObjTree.isDirty] at hd
      subst hd
      simp [ObjTree.setDirty, ObjTree.features]

/-- Witness for C8: the concrete tree with a clean root (one subscribed and
one unsubscribed feature) over a dirty subtree becomes fully dirty, the
subscribed feature alone receives markDirty, and setDirty on the dirty
one-node tree is a no-op. -/
theorem object_setDirty_spec_witness :
    exTree.isDirty = false ∧
    exTree.setDirty.allDirty = true ∧
    exTree.setDirty.features =
      [⟨CachedTransformations.invertedAbsolute, 1, 0, 0⟩, exFeatureNone] ∧
    exTreeDirty.setDirty = exTreeDirty := by
  have hclosed : exTree.dirtyClosed = true := by
    simp [exTree, ObjTree.dirtyClosed, ObjForest.dirtyClosedList, ObjTree.allDirty,
      ObjForest.allDirtyList]
  have h1 := object_setDirty_spec exTree hclosed
  have h2 := object_setDirty_spec exTreeDirty (by
    simp [exTreeDirty, ObjTree.dirtyClosed, ObjForest.dirtyClosedList,
      ObjForest.allDirtyList])
  refine ⟨rfl, h1.2.1, ?_, h2.1 rfl⟩
  rw [h1.2.2 rfl]
  simp [exTree, ObjTree.features, SGFeature.notifyDirty, exFeatureInv, exFeatureNone]

theorem dirtySuffixSplit_append (p : List PObj) :
    (dirtySuffixSplit p).1 ++ (dirtySuffixSplit p).2 = p := by
  induction p with
  | nil => rfl
  | cons o rest ih =>
    rw [dirtySuffixSplit]
    split
    · next hc =>
      have h1 : (dirtySuffixSplit rest).1 = [] := by
        simpa [List.isEmpty_iff] using hc.1
      rw [h1] at ih
      simpa using ih
    · simpa using ih

theorem dirtySuffixSplit_of_lastDirty_false (p : List PObj)
    (h : lastDirty p = false) : dirtySuffixSplit p = (p, []) := by
  induction p with
  | nil => rfl
  | cons o rest ih =>
    cases rest with
    | nil =>
      rw [lastDirty] at h
      simp at h
      rw [dirtySuffixSplit]
      simp [dirtySuffixSplit, h]
    | cons r rs =>
      have hrest : lastDirty (r :: rs) = false := by
        rw [lastDirty] at h ⊢
        rwa [List.getLast?_cons_cons] at h
      rw [dirtySuffixSplit, ih hrest]
      simp

theorem lastDirty_false_of_split_nil (p : List PObj)
    (h : (dirtySuffixSplit p).2 = []) : lastDirty p = false := by
  induction p with
  | nil => rfl
  | cons o rest ih =>
    rw [dirtySuffixSplit] at h
    split at h
    · next => simp at h
    · next hc =>
      cases rest with
      | nil =>
        have : ¬o.dirty = true := by
          intro hd
          exact hc ⟨by simp [dirtySuffixSplit], hd⟩
        rw [lastDirty]
        simp only [List.getLast?_singleton, Option.map_some, Option.getD_some]
        exact Bool.not_eq_true _ ▸ this
      | cons r rs =>
        have := ih (by simpa using h)
        rw [lastDirty] at this ⊢
        rwa [List.getLast?_cons_cons]

theorem cleanChain_lastDirty (pa : Mat3) (l : List PObj) (h : l ≠ []) :
    lastDirty (cleanChain pa l) = false := by
  induction l generalizing pa with
  | nil => exact absurd rfl h
  | cons o rest ih =>
    cases rest with
    | nil =>
      rw [cleanChain, cleanChain, lastDirty]
      simp [cleanObj]
    | cons r rs =>
      rw [cleanChain, lastDirty]
      rw [show cleanChain (cleanObj pa o).absoluteTransformation (r :: rs) =
        cleanObj (cleanObj pa o).absoluteTransformation r ::
          cleanChain (cleanObj (cleanObj pa o).absoluteTransformation r).absoluteTransformation rs
        from rfl]
      rw [List.getLast?_cons_cons]
      have := ih (cleanObj pa o).absoluteTransformation (by simp)
      rw [cleanChain, lastDirty] at this
      exact this

theorem lastDirty_append (pre l : List PObj) (h : l ≠ []) :
    lastDirty (pre ++ l) = lastDirty l := by
  induction pre with
  | nil => simp
  | cons a pre' ih =>
    cases hpl : pre' ++ l with
    | nil => exact absurd (List.append_eq_nil.mp hpl).2 h
    | cons b bs =>
      rw [List.cons_append, hpl, lastDirty, List.getLast?_cons_cons, ← hpl]
      exact ih

theorem setCleanPath_noop (p : List PObj) (h : lastDirty p = false) :
    setCleanPath p = p := by
  rw [setCleanPath, dirtySuffixSplit_of_lastDirty_false p h]
  simp [cleanChain]

theorem lastDirty_setCleanPath (p : List PObj) :
    lastDirty (setCleanPath p) = false := by
  cases hs : (dirtySuffixSplit p).2 with
  | nil =>
    have hl := lastDirty_false_of_split_nil p hs
    rw [setCleanPath_noop p hl]
    exact hl
  | cons x xs =>
    rw [setCleanPath, show dirtySuffixSplit p = ((dirtySuffixSplit p).1, (dirtySuffixSplit p).2)
      from rfl, hs]
    have hne : cleanChain (parentAbsoluteOf (dirtySuffixSplit p).1) (x :: xs) ≠ [] := by
      rw [cleanChain]
      simp
    rw [lastDirty_append _ _ hne]
    exact cleanChain_lastDirty _ _ (by simp)

/-- C9: setClean() on a path whose target is not dirty does nothing, and
setClean() twice in a row with no intervening mutation is the same as once:
the second call changes nothing, so no recomputation happens (no feature
clean counter advances) and the cached absolute/inverted transforms of the
object and its ancestors stay as the first call left them. -/
theorem object_setClean_idempotent (path : List PObj) :
    setCleanPath (setCleanPath path) = setCleanPath path ∧
    (lastDirty path = false → setCleanPath path = path) :=
  ⟨setCleanPath_noop _ (lastDirty_setCleanPath path), fun h => setCleanPath_noop path h⟩

/-- Witness for C9: on the concrete clean-root/dirty-target path a second
setClean equals the first, and on the already-clean path setClean is the
identity. -/
theorem object_setClean_idempotent_witness :
    setCleanPath (setCleanPath exPath) = setCleanPath exPath ∧
    lastDirty exPathClean = false ∧
    setCleanPath exPathClean = exPathClean :=
  ⟨(object_setClean_idempotent exPath).1, rfl,
   (object_setClean_idempotent exPathClean).2 rfl⟩

end Magnum
